import Mathlib

/-!
Verification of the ml-api-production inference core against its
natural-language specification.

The embedding translates `src/app/models/classifier.py`,
`src/app/models/model_config.py`, `src/app/core/config.py` and the relevant
parts of `src/app/api/routes.py` into Lean definitions.  Machine floats are
modelled as exact rationals; the opaque pretrained scorer (an external
artifact per the spec) enters the model as its output score vector, and the
`exp` of the softmax is modelled by a computable strictly positive rational
surrogate (only positivity of `exp` is used by any proved property).
Python exceptions are modelled by an explicit error type; the spec names
error kinds (`InvalidArgumentError`, `PredictionError`, ...) that the code
never defines, so those kinds appear as constructors that no embedded
function ever produces.
-/

namespace MLAPI

/-- Python exception values observable from the embedded code.  The code in
`classifier.py` only ever raises `ValueError` (its blanket
`except ... raise ValueError` clause), and the underlying numeric engine
raises `RuntimeError` / `IndexError` / `KeyError`; the constructors
`invalidArgumentError` and `predictionError` exist to state the error
taxonomy of spec section 7, which the code does not implement. -/
inductive PyError where
  | valueError (msg : String)
  | runtimeError (msg : String)
  | indexError (msg : String)
  | keyError (msg : String)
  | invalidArgumentError (msg : String)
  | predictionError (msg : String)
deriving DecidableEq

/-- The message carried by an exception, as interpolated by
`f"Failed to process image: \x7bstr(e)\x7d"` in `classifier.py` line 155. -/
def errMsg : PyError → String
  | .valueError m => m
  | .runtimeError m => m
  | .indexError m => m
  | .keyError m => m
  | .invalidArgumentError m => m
  | .predictionError m => m

/-- Failure injection for the external torch calls made by the classifier:
whether `models.resnet18(...)` raises, whether `model.to(device)` raises,
and whether the forward pass `self.model(img_tensor)` raises (with the
raised message). -/
structure TorchEnv where
  ctorFails : Bool
  toDeviceFails : Bool
  forwardError : Option String
deriving DecidableEq

/-- The environment in which none of the external torch calls fail. -/
def goodEnv : TorchEnv := ⟨false, false, none⟩

/-- The model object held in `self.model` after `_load_model` has run (fully
or partially): the architecture constructed (always resnet18 in
`classifier.py` line 83), whether `.to(self.device)` completed (line 84) and
whether `.eval()` completed (line 85). -/
structure LoadedModel where
  arch : String
  onDevice : Bool
  evalMode : Bool
deriving DecidableEq

/-- The mutable state of an `ImageClassifier` instance: the lazily loaded
`self.model` (`None` until `_load_model` constructs it), `self.device`, and
a ghost construction counter (the construction counter demanded by spec
section 8 for the lazy-load property). -/
structure ClassifierState where
  model : Option LoadedModel
  device : String
  ctorCount : ℕ
deriving DecidableEq

/-- State after `ImageClassifier.__init__` (line 42: `self.model = None`);
no scorer is constructed at service creation. -/
def initState (device : String) : ClassifierState := ⟨none, device, 0⟩

/-- State after one successful `_load_model` starting from `initState`. -/
def loadedState (device : String) : ClassifierState :=
  ⟨some ⟨"resnet18", true, true⟩, device, 1⟩

/-- `ImageClassifier._load_model` (classifier.py lines 73-86), sequential
semantics.  The body runs only when `self.model is None`; the assignment
`self.model = models.resnet18(...)` happens before `.to(self.device)` and
`.eval()`, so a failure of `.to` leaves `self.model` set to a
partially-initialized object.  There is no lock around the check. -/
def loadModel (env : TorchEnv) (s : ClassifierState) :
    Except PyError Unit × ClassifierState :=
  if s.model.isSome then (.ok (), s)
  else if env.ctorFails then (.error (.runtimeError "weights unavailable"), s)
  else if env.toDeviceFails then
    (.error (.runtimeError "unsupported device"),
     ⟨some ⟨"resnet18", false, false⟩, s.device, s.ctorCount + 1⟩)
  else (.ok (), ⟨some ⟨"resnet18", true, true⟩, s.device, s.ctorCount + 1⟩)

/-- Strictly positive computable surrogate for the opaque floating-point
`exp` used by `torch.nn.functional.softmax`; every proved property of the
softmax depends only on its strict positivity. -/
def ratExp (x : ℚ) : ℚ := if 0 ≤ x then 1 + x else 1 / (1 - x)

/-- `torch.nn.functional.softmax(outputs[0], dim=0)` (classifier.py line
138): exponentiate each raw score and divide by the total. -/
def softmax (scores : List ℚ) : List ℚ :=
  (scores.map ratExp).map (fun e => e / (scores.map ratExp).sum)

/-- First maximal element of a list of (label-set index, probability)
pairs: a later element replaces the current best only when strictly
greater, so among ties the earliest (lowest-index) element wins.  This is
one admissible resolution of the tie order of `torch.topk` (classifier.py
line 141): torch documents no order among equal values (and CPU and CUDA
devices differ), so the executable path below fixes the lowest-index
resolution, while the documented tie-order-free contract of `torch.topk`
is stated separately as `TopkAdmissible`.  Every property proved through
this resolution (success, result length, error behavior) is insensitive
to the tie choice. -/
def argmaxP : List (ℕ × ℚ) → Option (ℕ × ℚ)
  | [] => none
  | p :: rest =>
    match argmaxP rest with
    | none => some p
    | some q => if p.2 < q.2 then some q else some p

/-- `torch.topk(probabilities, top_k)` as repeated extraction of the first
maximal remaining pair, returning the selected pairs in
descending-probability order - one admissible resolution of the
tie-order-free `torch.topk` contract `TopkAdmissible` (see
`topkAux_admissible`). -/
def topkAux : ℕ → List (ℕ × ℚ) → List (ℕ × ℚ)
  | 0, _ => []
  | k + 1, l =>
    match argmaxP l with
    | none => []
    | some p => p :: topkAux k (l.erase p)

/-- The documented contract of `torch.topk(input, k, sorted=True)` over a
list of (label-set index, probability) pairs: the output consists of `k`
of the input pairs (a subpermutation), in non-increasing value order, and
every input pair left out has value at most that of every selected pair.
The order among pairs of equal value is deliberately unconstrained: torch
documents no tie order, and the observed order differs between CPU and
CUDA devices. -/
def TopkAdmissible (l : List (ℕ × ℚ)) (k : ℕ) (out : List (ℕ × ℚ)) : Prop :=
  out.length = k
  ∧ out.Subperm l
  ∧ out.Pairwise (fun p q => q.2 ≤ p.2)
  ∧ ∀ a ∈ l, a ∈ out ∨ ∀ b ∈ out, a.2 ≤ b.2

/-- The tie rule the spec claims for prediction lists: whenever an entry
precedes another of equal confidence, its label-set index is smaller. -/
def TiesLowerIndexFirst (out : List (ℕ × ℚ)) : Prop :=
  out.Pairwise (fun p q => p.2 = q.2 → p.1 < q.1)

/-- `ImageClassifier._load_imagenet_labels` (classifier.py lines 61-71):
the placeholder label set `class_0 .. class_999`. -/
def classLabels : List String :=
  (List.range 1000).map (fun i => "class_" ++ toString i)

/-- The size of the label set (1000 in the default configuration). -/
def labelSetSize : ℕ := 1000

/-- The ranking order the spec states for prediction lists: an earlier
entry has strictly larger probability, or equal probability and strictly
smaller label-set index. -/
def better (p q : ℕ × ℚ) : Prop := q.2 < p.2 ∨ (p.2 = q.2 ∧ p.1 < q.1)

/-- The `try:` body of `ImageClassifier.predict` (classifier.py lines
128-151) for an already-decoded valid image whose forward-pass raw score
vector is `scores`: load the model lazily, run the forward pass, softmax,
`torch.topk`, format the (label, confidence) pairs, and evaluate the
logging f-string that indexes `predictions[0]` (line 150).  `torch.topk`
raises when `top_k` is negative or exceeds the vector length; the logging
line raises `IndexError` when the prediction list is empty (`top_k = 0`). -/
def predictTry (env : TorchEnv) (scores : List ℚ) (top_k : ℤ)
    (s : ClassifierState) :
    Except PyError (List (String × ℚ)) × ClassifierState :=
  match loadModel env s with
  | (.error e, s1) => (.error e, s1)
  | (.ok _, s1) =>
    match env.forwardError with
    | some m => (.error (.runtimeError m), s1)
    | none =>
      if top_k < 0 ∨ ((softmax scores).length : ℤ) < top_k then
        (.error (.runtimeError "selected index k out of range"), s1)
      else
        if (topkAux top_k.toNat (softmax scores).enum).map
            (fun p => (classLabels.getD p.1 "", p.2)) = [] then
          (.error (.indexError "list index out of range"), s1)
        else
          (.ok ((topkAux top_k.toNat (softmax scores).enum).map
            (fun p => (classLabels.getD p.1 "", p.2))), s1)

/-- `ImageClassifier.predict` (classifier.py lines 110-155): the `try:`
body wrapped by the blanket `except Exception as e: raise
ValueError(f"Failed to process image: \x7bstr(e)\x7d")` clause, which
erases the kind of every failure into a `ValueError`. -/
def predict (env : TorchEnv) (scores : List ℚ) (top_k : ℤ)
    (s : ClassifierState) :
    Except PyError (List (String × ℚ)) × ClassifierState :=
  match predictTry env scores top_k s with
  | (.error e, s1) =>
    (.error (.valueError ("Failed to process image: " ++ errMsg e)), s1)
  | (.ok r, s1) => (.ok r, s1)

/-- Whether a predict outcome is a raised `ValueError`. -/
def isValueError {α : Type} : Except PyError α → Bool
  | .error (.valueError _) => true
  | _ => false

/-- Whether a predict outcome is a raised `InvalidArgumentError` (the kind
the spec prescribes for an out-of-range `top_k`). -/
def raisedInvalidArgument {α : Type} : Except PyError α → Bool
  | .error (.invalidArgumentError _) => true
  | _ => false

/-- Whether a predict outcome is a raised `PredictionError` (the kind the
spec prescribes for a forward-pass failure). -/
def raisedPredictionError {α : Type} : Except PyError α → Bool
  | .error (.predictionError _) => true
  | _ => false

/-- The readiness predicate of the service: `classifier.model is not None`,
computed by the health endpoint (routes.py line 45) as `model_loaded`; the
spec calls this operation `is_ready()`. -/
def is_ready (s : ClassifierState) : Bool := s.model.isSome

/-- Sequential (serialized) execution of a sequence of `_load_model`
attempts, each with its own external-failure environment, as performed by
successive `predict` calls on one classifier instance. -/
def runLoads (envs : List TorchEnv) (s : ClassifierState) : ClassifierState :=
  envs.foldl (fun st e => (loadModel e st).2) s

/-- Shared state of N threads concurrently executing the body of
`_load_model`, whose critical section has no lock: the shared `self.model`
field (abstracted to presence), a construction counter, and one program
counter per thread.  Program counter 0 = about to evaluate the check
`if self.model is None` (classifier.py line 80); 1 = observed `None` and
about to construct and assign (line 83); 2 = finished. -/
structure ConcState where
  model : Option Unit
  count : ℕ
  pcs : List ℕ
deriving DecidableEq

/-- One atomic step of thread `t`: either evaluate the unsynchronized
`None` check, or construct the model and assign the shared field. -/
def concStep (s : ConcState) (t : ℕ) : ConcState :=
  match s.pcs[t]? with
  | none => s
  | some pc =>
    if pc = 0 then
      { s with pcs := s.pcs.set t (if s.model.isSome then 2 else 1) }
    else if pc = 1 then
      { model := some (), count := s.count + 1, pcs := s.pcs.set t 2 }
    else s

/-- Initial shared state for `n` threads that all entered `_load_model`
before any initialization completed. -/
def concInit (n : ℕ) : ConcState := ⟨none, 0, List.replicate n 0⟩

/-- Run a schedule (a list of thread ids, each entry letting that thread
take one atomic step) against the shared state. -/
def concRun (n : ℕ) (sched : List ℕ) : ConcState :=
  sched.foldl concStep (concInit n)

/-- One entry of `ModelConfig.MODELS` (model_config.py lines 23-44). -/
structure ModelInfo where
  arch : String
  weights : String
  description : String
deriving DecidableEq

/-- The `MODELS` entry for resnet18. -/
def resnet18Info : ModelInfo := ⟨"resnet18", "IMAGENET1K_V1", "Fast and lightweight"⟩

/-- `ModelConfig.MODELS` (model_config.py lines 23-44): the fixed mapping
from model identifier to architecture, pretrained-weight source and
description. -/
def MODELS : List (String × ModelInfo) :=
  [("resnet18", resnet18Info),
   ("resnet50", ⟨"resnet50", "IMAGENET1K_V2", "Better accuracy, moderate speed"⟩),
   ("resnet101", ⟨"resnet101", "IMAGENET1K_V2", "Best accuracy, slower"⟩),
   ("efficientnet_b2", ⟨"efficientnet_b2", "IMAGENET1K_V1", "Efficient and accurate"⟩)]

/-- The model returned by `ModelConfig.get_model`: the selected entry,
placed on the requested device and put in eval mode. -/
structure ConfiguredModel where
  info : ModelInfo
  device : String
  evalMode : Bool
deriving DecidableEq

/-- Result of `ModelConfig.get_model`: the loaded model plus whether the
unknown-identifier warning was logged. -/
structure GetModelResult where
  m : ConfiguredModel
  warned : Bool
deriving DecidableEq

/-- `ModelConfig.get_model` (model_config.py lines 46-69): an identifier
absent from `MODELS` is replaced by `"resnet18"` with a warning, then the
entry is looked up (`cls.MODELS[model_name]`, which would raise `KeyError`
were the key absent) and the model is built, moved to the device and put
in eval mode. -/
def get_model (modelName device : String) : Except PyError GetModelResult :=
  if (MODELS.lookup modelName).isSome then
    match MODELS.lookup modelName with
    | some info => .ok ⟨⟨info, device, true⟩, false⟩
    | none => .error (.keyError modelName)
  else
    match MODELS.lookup "resnet18" with
    | some info => .ok ⟨⟨info, device, true⟩, true⟩
    | none => .error (.keyError "resnet18")

/-- The ML-model fields of `Settings` (config.py lines 31-32): the
configured model identifier and optional device override. -/
structure Settings where
  model_name : String
  model_device : Option String
deriving DecidableEq

/-- The defaults of `Settings` (config.py lines 31-32). -/
def defaultSettings : Settings := ⟨"resnet18", none⟩

/-- The model load performed on the prediction path, as a function of the
application configuration: the route calls `get_classifier()`, which
constructs `ImageClassifier()` passing nothing from `settings`
(classifier.py line 171), and `_load_model` hardcodes resnet18
(classifier.py line 83) - so the configuration is not consulted at all. -/
def loadModelWithConfig (cfg : Settings) (env : TorchEnv)
    (s : ClassifierState) : Except PyError Unit × ClassifierState :=
  loadModel env s

/-- The module-level singleton state of classifier.py lines 158-172: the
global `_classifier_instance` (identified by the value of a construction
counter at its creation) together with that counter. -/
structure AppState where
  classifierInstance : Option ℕ
  ctorCount : ℕ
deriving DecidableEq

/-- Module state at process start: `_classifier_instance = None`. -/
def appInit : AppState := ⟨none, 0⟩

/-- `get_classifier` (classifier.py lines 162-172): construct the global
instance when the module variable is `None`, then return it.  All requests
run this on the single event-loop thread (the route handlers are `async
def` and the function contains no suspension point), so calls are
serialized. -/
def get_classifier (g : AppState) : ℕ × AppState :=
  match g.classifierInstance with
  | some c => (c, g)
  | none => (g.ctorCount, ⟨some g.ctorCount, g.ctorCount + 1⟩)

/-- `n` successive `get_classifier()` calls, collecting the returned
instances. -/
def runGetClassifier : ℕ → AppState → List ℕ × AppState
  | 0, g => ([], g)
  | n + 1, g =>
    ((get_classifier g).1 :: (runGetClassifier n (get_classifier g).2).1,
     (runGetClassifier n (get_classifier g).2).2)

/-- The color mode of a decoded PIL image (`image.mode`). -/
inductive ColorMode where
  | RGB
  | L
  | RGBA
  | P
  | CMYK
deriving DecidableEq

/-- A decoded PIL image: pixel dimensions, color mode, and its pixel
planes as exact rationals in [0, 255].  `gray` is the luminance plane used
by mode `L`; `color c x y` is channel `c` of the three color planes that
`convert("RGB")` produces for the other modes (for RGBA the alpha plane is
dropped, for P the palette is resolved). -/
structure PILImage where
  width : ℕ
  height : ℕ
  mode : ColorMode
  gray : ℕ → ℕ → ℚ
  color : ℕ → ℕ → ℕ → ℚ

/-- Channel `c` of the image after the `image.convert("RGB")` step of
`preprocess_image` (classifier.py lines 99-100): a grayscale image is
replicated across the three channels, every other mode yields its three
color planes. -/
def toRGBchan (img : PILImage) (c x y : ℕ) : ℚ :=
  match img.mode with
  | ColorMode.L => img.gray x y
  | _ => img.color c x y

/-- Output dimensions of `transforms.Resize(256)`: the shorter side is
scaled to 256, the other side by the same ratio (torchvision computes
`int(256 * other / shorter)`, modelled by natural floor division). -/
def resizeDims (w h : ℕ) : ℕ × ℕ :=
  if w ≤ h then (256, 256 * h / w) else (256 * w / h, 256)

/-- Center-aligned source coordinate of destination index `i` when
resampling a side of `src` pixels to `dst` pixels. -/
def srcCoord (src dst : ℕ) (i : ℕ) : ℚ :=
  ((i : ℚ) + 1 / 2) * src / dst - 1 / 2

/-- Clamp a source index to the valid range `[0, n - 1]`. -/
def clampIdx (n : ℕ) (i : ℤ) : ℕ := (min (max i 0) ((n : ℤ) - 1)).toNat

/-- Bilinear resampling of one channel plane at fractional source
coordinates: the convex combination of the four clamped neighbors.  The
spec leaves the interpolation kernel implementation-defined; every proved
property uses only that the result is a convex combination of source
pixels. -/
def bilinear (w h : ℕ) (f : ℕ → ℕ → ℚ) (x y : ℚ) : ℚ :=
  (1 - (y - ⌊y⌋)) * ((1 - (x - ⌊x⌋)) * f (clampIdx w ⌊x⌋) (clampIdx h ⌊y⌋)
      + (x - ⌊x⌋) * f (clampIdx w (⌊x⌋ + 1)) (clampIdx h ⌊y⌋))
    + (y - ⌊y⌋) * ((1 - (x - ⌊x⌋)) * f (clampIdx w ⌊x⌋) (clampIdx h (⌊y⌋ + 1))
      + (x - ⌊x⌋) * f (clampIdx w (⌊x⌋ + 1)) (clampIdx h (⌊y⌋ + 1)))

/-- Channel `c` of the image after `transforms.Resize(256)` applied to the
RGB-converted image. -/
def resizedChan (img : PILImage) (c i j : ℕ) : ℚ :=
  bilinear img.width img.height (toRGBchan img c)
    (srcCoord img.width (resizeDims img.width img.height).1 i)
    (srcCoord img.height (resizeDims img.width img.height).2 j)

/-- Top-left offset of `transforms.CenterCrop(224)` along a side of `n`
pixels. -/
def cropOffset (n : ℕ) : ℕ := (n - 224) / 2

/-- Channel `c` of the image after `transforms.CenterCrop(224)`. -/
def croppedChan (img : PILImage) (c i j : ℕ) : ℚ :=
  resizedChan img c (i + cropOffset (resizeDims img.width img.height).1)
    (j + cropOffset (resizeDims img.width img.height).2)

/-- The per-channel normalization mean of `transforms.Normalize`
(classifier.py line 53). -/
def imagenetMean (c : ℕ) : ℚ :=
  if c = 0 then 485 / 1000 else if c = 1 then 456 / 1000 else 406 / 1000

/-- The per-channel normalization standard deviation of
`transforms.Normalize` (classifier.py line 54). -/
def imagenetStd (c : ℕ) : ℚ :=
  if c = 0 then 229 / 1000 else if c = 1 then 224 / 1000 else 225 / 1000

/-- A 4-dimensional tensor: its shape and its entries. -/
structure Tensor4 where
  dims : ℕ × ℕ × ℕ × ℕ
  val : ℕ → ℕ → ℕ → ℕ → ℚ

/-- `ImageClassifier.preprocess_image` (classifier.py lines 88-108):
convert to RGB, resize the shorter side to 256, center-crop to 224,
`ToTensor` (scale to [0, 1]) then `Normalize`, and `unsqueeze(0)` to add
the leading batch dimension. -/
def preprocess_image (img : PILImage) : Tensor4 :=
  ⟨(1, 3, 224, 224),
   fun _b c i j => (croppedChan img c i j / 255 - imagenetMean c) / imagenetStd c⟩

/-- A concrete 1 by 1 grayscale image with constant luminance 100, used to
instantiate universally quantified preprocessing theorems. -/
def testImgL : PILImage := ⟨1, 1, ColorMode.L, fun _ _ => 100, fun _ _ _ => 0⟩

/-! ### Basic facts about the lazy model load -/

theorem loadModel_of_loaded (env : TorchEnv) (s : ClassifierState)
    (hs : s.model.isSome = true) : loadModel env s = (.ok (), s) := by
  simp [loadModel, hs]

theorem loadModel_init (d : String) :
    loadModel goodEnv (initState d) = (.ok (), loadedState d) := rfl

theorem loadModel_forwardEnv_init (d m : String) :
    loadModel ⟨false, false, some m⟩ (initState d) = (.ok (), loadedState d) := rfl

theorem loadedState_isSome (d : String) :
    (loadedState d).model.isSome = true := rfl

theorem predictTry_snd (env : TorchEnv) (scores : List ℚ) (tk : ℤ)
    (s : ClassifierState) :
    (predictTry env scores tk s).2 = (loadModel env s).2 := by
  unfold predictTry
  rcases h : loadModel env s with ⟨lr, s1⟩
  cases lr with
  | error e => rfl
  | ok u =>
    cases hf : env.forwardError with
    | some m => rfl
    | none =>
      simp only []
      split
      · rfl
      · split <;> rfl

theorem predict_snd (env : TorchEnv) (scores : List ℚ) (tk : ℤ)
    (s : ClassifierState) :
    (predict env scores tk s).2 = (loadModel env s).2 := by
  unfold predict
  rcases h : predictTry env scores tk s with ⟨r, s1⟩
  have h2 : s1 = (loadModel env s).2 := by
    have := predictTry_snd env scores tk s
    rw [h] at this
    exact this
  cases r <;> simp [h2]

/-! ### Softmax facts -/

theorem ratExp_pos (x : ℚ) : 0 < ratExp x := by
  unfold ratExp
  split
  · linarith
  · have hx : x < 0 := by linarith [not_le.mp (by assumption)]
    have : (0 : ℚ) < 1 - x := by linarith
    positivity

theorem softmax_length (l : List ℚ) : (softmax l).length = l.length := by
  simp [softmax]

theorem softmax_mem_bounds (l : List ℚ) (hne : l ≠ []) :
    ∀ x ∈ softmax l, 0 < x ∧ x ≤ 1 := by
  intro x hx
  unfold softmax at hx
  rcases List.mem_map.mp hx with ⟨e, he, rfl⟩
  have hpos : ∀ a ∈ l.map ratExp, 0 < a := by
    intro a ha
    rcases List.mem_map.mp ha with ⟨b, _, rfl⟩
    exact ratExp_pos b
  have hmapne : l.map ratExp ≠ [] := by
    simpa using hne
  have hsum : 0 < (l.map ratExp).sum := List.sum_pos _ hpos hmapne
  have hle : e ≤ (l.map ratExp).sum :=
    List.single_le_sum (fun a ha => le_of_lt (hpos a ha)) e he
  exact ⟨div_pos (hpos e he) hsum, (div_le_one hsum).mpr hle⟩

/-! ### Enumeration facts -/

theorem mem_enumFrom_le {α : Type} :
    ∀ (n : ℕ) (l : List α) (p : ℕ × α), p ∈ List.enumFrom n l → n ≤ p.1
  | _, [], _, h => by simp at h
  | n, a :: l, p, h => by
    rcases List.mem_cons.mp h with rfl | h
    · exact le_refl n
    · exact le_of_lt (lt_of_lt_of_le (Nat.lt_succ_self n)
        (mem_enumFrom_le (n + 1) l p h))

theorem mem_enumFrom_snd {α : Type} :
    ∀ (n : ℕ) (l : List α) (p : ℕ × α), p ∈ List.enumFrom n l → p.2 ∈ l
  | _, [], _, h => by simp at h
  | n, a :: l, p, h => by
    rcases List.mem_cons.mp h with rfl | h
    · exact List.mem_cons_self _ _
    · exact List.mem_cons_of_mem _ (mem_enumFrom_snd (n + 1) l p h)

theorem enumFrom_pairwise {α : Type} :
    ∀ (n : ℕ) (l : List α),
      (List.enumFrom n l).Pairwise (fun a b => a.1 < b.1)
  | _, [] => List.Pairwise.nil
  | n, a :: l => by
    rw [List.enumFrom]
    exact List.Pairwise.cons
      (fun p hp => lt_of_lt_of_le (Nat.lt_succ_self n) (mem_enumFrom_le (n + 1) l p hp))
      (enumFrom_pairwise (n + 1) l)

theorem enum_length {α : Type} (l : List α) : l.enum.length = l.length := by
  simp [List.enum_length]

/-! ### Selection (torch.topk) facts -/

theorem argmaxP_cons_isSome (p : ℕ × ℚ) (rest : List (ℕ × ℚ)) :
    (argmaxP (p :: rest)).isSome = true := by
  unfold argmaxP
  cases h : argmaxP rest with
  | none => rfl
  | some q =>
    by_cases hc : p.2 < q.2 <;> simp [hc]

theorem argmaxP_eq_none {l : List (ℕ × ℚ)} (h : argmaxP l = none) : l = [] := by
  cases l with
  | nil => rfl
  | cons a rest =>
    have := argmaxP_cons_isSome a rest
    rw [h] at this
    simp at this

theorem argmaxP_mem :
    ∀ (l : List (ℕ × ℚ)) (p : ℕ × ℚ), argmaxP l = some p → p ∈ l
  | [], p, h => by simp [argmaxP] at h
  | a :: rest, p, h => by
    rw [argmaxP] at h
    cases hm : argmaxP rest with
    | none =>
      rw [hm] at h
      simp at h
      simp [h]
    | some q =>
      rw [hm] at h
      by_cases hc : a.2 < q.2
      · simp [hc] at h
        subst h
        exact List.mem_cons_of_mem _ (argmaxP_mem rest q hm)
      · simp [hc] at h
        simp [h]

theorem argmaxP_le :
    ∀ (l : List (ℕ × ℚ)) (p : ℕ × ℚ), argmaxP l = some p →
      ∀ q ∈ l, q.2 ≤ p.2
  | [], p, h => by simp [argmaxP] at h
  | a :: rest, p, h => by
    rw [argmaxP] at h
    cases hm : argmaxP rest with
    | none =>
      rw [hm] at h
      simp at h
      subst h
      have hrest : rest = [] := argmaxP_eq_none hm
      subst hrest
      intro q hq
      rcases List.mem_cons.mp hq with rfl | hq
      · exact le_refl _
      · exact absurd hq (by simp)
    | some m =>
      rw [hm] at h
      by_cases hc : a.2 < m.2
      · simp [hc] at h
        subst h
        intro q hq
        rcases List.mem_cons.mp hq with rfl | hq
        · exact le_of_lt hc
        · exact argmaxP_le rest m hm q hq
      · simp [hc] at h
        subst h
        intro q hq
        rcases List.mem_cons.mp hq with rfl | hq
        · exact le_refl _
        · exact le_trans (argmaxP_le rest m hm q hq) (not_lt.mp hc)

theorem argmaxP_first :
    ∀ (l : List (ℕ × ℚ)) (p : ℕ × ℚ),
      l.Pairwise (fun a b => a.1 < b.1) → argmaxP l = some p →
      ∀ q ∈ l, q ≠ p → better p q
  | [], p, _, h => by simp [argmaxP] at h
  | a :: rest, p, hl, h => by
    rw [argmaxP] at h
    rw [List.pairwise_cons] at hl
    cases hm : argmaxP rest with
    | none =>
      rw [hm] at h
      simp at h
      subst h
      have hrest : rest = [] := argmaxP_eq_none hm
      subst hrest
      intro q hq hne
      rcases List.mem_cons.mp hq with rfl | hq
      · exact absurd rfl hne
      · exact absurd hq (by simp)
    | some m =>
      rw [hm] at h
      by_cases hc : a.2 < m.2
      · simp [hc] at h
        subst h
        intro q hq hne
        rcases List.mem_cons.mp hq with rfl | hq
        · exact Or.inl hc
        · exact argmaxP_first rest m hl.2 hm q hq hne
      · simp [hc] at h
        subst h
        intro q hq hne
        rcases List.mem_cons.mp hq with rfl | hq
        · exact absurd rfl hne
        · have hle : q.2 ≤ m.2 := argmaxP_le rest m hm q hq
          have hle2 : q.2 ≤ a.2 := le_trans hle (not_lt.mp hc)
          rcases lt_or_eq_of_le hle2 with hlt | heq
          · exact Or.inl hlt
          · exact Or.inr ⟨heq.symm, hl.1 q hq⟩

theorem topkAux_subset :
    ∀ (k : ℕ) (l : List (ℕ × ℚ)) (p : ℕ × ℚ), p ∈ topkAux k l → p ∈ l := by
  intro k
  induction k with
  | zero => intro l p h; simp [topkAux] at h
  | succ k ih =>
    intro l p h
    rw [topkAux] at h
    cases hm : argmaxP l with
    | none => rw [hm] at h; simp at h
    | some q =>
      rw [hm] at h
      rcases List.mem_cons.mp h with rfl | h
      · exact argmaxP_mem l p hm
      · exact List.mem_of_mem_erase (ih (l.erase q) p h)

theorem topkAux_length :
    ∀ (k : ℕ) (l : List (ℕ × ℚ)), k ≤ l.length → (topkAux k l).length = k := by
  intro k
  induction k with
  | zero => intro l _; simp [topkAux]
  | succ k ih =>
    intro l hk
    rw [topkAux]
    cases l with
    | nil => simp at hk
    | cons a rest =>
      cases hm : argmaxP (a :: rest) with
      | none =>
        have hnil := argmaxP_eq_none hm
        simp at hnil
      | some p =>
        have hmem : p ∈ a :: rest := argmaxP_mem _ p hm
        have herase : ((a :: rest).erase p).length = (a :: rest).length - 1 :=
          List.length_erase_of_mem hmem
        simp only [List.length_cons]
        rw [ih ((a :: rest).erase p) (by rw [herase]; simp at hk ⊢; omega)]

theorem pairwise_idx_nodup (l : List (ℕ × ℚ))
    (hl : l.Pairwise (fun a b => a.1 < b.1)) : l.Nodup :=
  hl.imp (fun h => by
    intro he
    rw [he] at h
    exact lt_irrefl _ h)

theorem topkAux_pairwise :
    ∀ (k : ℕ) (l : List (ℕ × ℚ)), l.Pairwise (fun a b => a.1 < b.1) →
      (topkAux k l).Pairwise better := by
  intro k
  induction k with
  | zero => intro l _; simp [topkAux]
  | succ k ih =>
    intro l hl
    rw [topkAux]
    cases hm : argmaxP l with
    | none => simp
    | some p =>
      refine List.Pairwise.cons ?_ (ih (l.erase p) (hl.sublist (l.erase_sublist p)))
      intro q hq
      have hq1 : q ∈ l.erase p := topkAux_subset k (l.erase p) q hq
      have hq2 : q ≠ p ∧ q ∈ l :=
        ((pairwise_idx_nodup l hl).mem_erase_iff).mp hq1
      exact argmaxP_first l p hl hm q hq2.2 hq2.1

theorem topkAux_largest :
    ∀ (k : ℕ) (l : List (ℕ × ℚ)), ∀ a ∈ l,
      a ∈ topkAux k l ∨ ∀ b ∈ topkAux k l, a.2 ≤ b.2 := by
  intro k
  induction k with
  | zero =>
    intro l a ha
    right
    intro b hb
    simp [topkAux] at hb
  | succ k ih =>
    intro l a ha
    cases hm : argmaxP l with
    | none =>
      right
      intro b hb
      rw [topkAux, hm] at hb
      simp at hb
    | some p =>
      rw [topkAux, hm]
      by_cases hap : a = p
      · left
        rw [hap]
        exact List.mem_cons_self _ _
      · have ha2 : a ∈ l.erase p := (List.mem_erase_of_ne hap).mpr ha
        rcases ih (l.erase p) a ha2 with h | h
        · left
          exact List.mem_cons_of_mem _ h
        · right
          intro b hb
          rcases List.mem_cons.mp hb with rfl | hb
          · exact argmaxP_le l b hm a ha
          · exact h b hb

theorem topkAux_admissible (k : ℕ) (l : List (ℕ × ℚ))
    (hl : l.Pairwise (fun a b => a.1 < b.1)) (hk : k ≤ l.length) :
    TopkAdmissible l k (topkAux k l) := by
  unfold TopkAdmissible
  refine ⟨topkAux_length k l hk, ?_, ?_, topkAux_largest k l⟩
  · have hnodup : (topkAux k l).Nodup :=
      (topkAux_pairwise k l hl).imp (fun hb => by
        rcases hb with hlt | ⟨heq, hidx⟩
        · intro he
          rw [he] at hlt
          exact lt_irrefl _ hlt
        · intro he
          rw [he] at hidx
          exact lt_irrefl _ hidx)
    exact hnodup.subperm (fun a ha => topkAux_subset k l a ha)
  · exact (topkAux_pairwise k l hl).imp (fun hb => by
      rcases hb with hlt | ⟨heq, _⟩
      · exact le_of_lt hlt
      · exact le_of_eq heq.symm)

theorem softmax_replicate_zero :
    softmax (List.replicate 1000 0) = List.replicate 1000 ((1 : ℚ) / 1000) := by
  have h1 : ratExp 0 = 1 := by norm_num [ratExp]
  have h2 : (List.replicate 1000 (0 : ℚ)).map ratExp = List.replicate 1000 1 := by
    rw [List.map_replicate, h1]
  have h3 : (List.replicate 1000 (1 : ℚ)).sum = 1000 := by
    rw [List.sum_replicate]
    simp
  unfold softmax
  rw [h2, h3, List.map_replicate]

theorem enum_replicate_head2 :
    (List.replicate 1000 ((1 : ℚ) / 1000)).enum
      = (0, (1 : ℚ) / 1000) :: (1, (1 : ℚ) / 1000)
        :: List.enumFrom 2 (List.replicate 998 ((1 : ℚ) / 1000)) := by
  rw [show (1000 : ℕ) = 998 + 1 + 1 by norm_num]
  rw [List.replicate_succ, List.replicate_succ]
  rfl

theorem tied_admissible_01 :
    TopkAdmissible (softmax (List.replicate 1000 0)).enum 2
      [(0, (1 : ℚ) / 1000), (1, (1 : ℚ) / 1000)] := by
  rw [softmax_replicate_zero, enum_replicate_head2]
  unfold TopkAdmissible
  refine ⟨rfl, ?_, ?_, ?_⟩
  · exact (List.sublist_append_left
      [(0, (1 : ℚ) / 1000), (1, (1 : ℚ) / 1000)] _).subperm
  · simp
  · intro a ha
    right
    intro b hb
    have ha2 : a.2 = (1 : ℚ) / 1000 := by
      rcases List.mem_cons.mp ha with rfl | ha
      · rfl
      rcases List.mem_cons.mp ha with rfl | ha
      · rfl
      · exact List.eq_of_mem_replicate (mem_enumFrom_snd 2 _ a ha)
    have hb2 : b.2 = (1 : ℚ) / 1000 := by
      rcases List.mem_cons.mp hb with rfl | hb
      · rfl
      rcases List.mem_cons.mp hb with rfl | hb
      · rfl
      · exact absurd hb (by simp)
    rw [ha2, hb2]

theorem tied_admissible_10 :
    TopkAdmissible (softmax (List.replicate 1000 0)).enum 2
      [(1, (1 : ℚ) / 1000), (0, (1 : ℚ) / 1000)] := by
  rw [softmax_replicate_zero, enum_replicate_head2]
  unfold TopkAdmissible
  refine ⟨rfl, ?_, ?_, ?_⟩
  · exact (List.Perm.subperm
        (List.Perm.swap ((0 : ℕ), (1 : ℚ) / 1000) ((1 : ℕ), (1 : ℚ) / 1000) [])).trans
      (List.sublist_append_left
        [(0, (1 : ℚ) / 1000), (1, (1 : ℚ) / 1000)] _).subperm
  · simp
  · intro a ha
    right
    intro b hb
    have ha2 : a.2 = (1 : ℚ) / 1000 := by
      rcases List.mem_cons.mp ha with rfl | ha
      · rfl
      rcases List.mem_cons.mp ha with rfl | ha
      · rfl
      · exact List.eq_of_mem_replicate (mem_enumFrom_snd 2 _ a ha)
    have hb2 : b.2 = (1 : ℚ) / 1000 := by
      rcases List.mem_cons.mp hb with rfl | hb
      · rfl
      rcases List.mem_cons.mp hb with rfl | hb
      · rfl
      · exact absurd hb (by simp)
    rw [ha2, hb2]

/-! ### Assembling predict -/

theorem predict_ok (env : TorchEnv) (scores : List ℚ) (k : ℕ)
    (s t : ClassifierState)
    (hload : loadModel env s = (.ok (), t))
    (hforward : env.forwardError = none)
    (hlen : scores.length = 1000) (hk1 : 1 ≤ k) (hk2 : k ≤ 1000) :
    predict env scores (k : ℤ) s =
      (.ok ((topkAux k (softmax scores).enum).map
        (fun p => (classLabels.getD p.1 "", p.2))), t) := by
  have hplen : (softmax scores).length = 1000 := by
    rw [softmax_length, hlen]
  have hcond : ¬((k : ℤ) < 0 ∨ ((softmax scores).length : ℤ) < (k : ℤ)) := by
    rw [hplen]
    push_cast
    omega
  have htoNat : ((k : ℤ)).toNat = k := Int.toNat_natCast k
  have hlistlen : (topkAux k (softmax scores).enum).length = k := by
    apply topkAux_length
    rw [enum_length, hplen]
    exact hk2
  have hne : (topkAux k (softmax scores).enum).map
      (fun p => (classLabels.getD p.1 "", p.2)) ≠ [] := by
    intro hcontra
    have : k = 0 := by
      have := congrArg List.length hcontra
      rw [List.length_map, hlistlen] at this
      simpa using this
    omega
  unfold predict predictTry
  rw [hload]
  simp only [hforward, htoNat, if_neg hcond, if_neg hne]

/-! ### Sequential at-most-once construction -/

theorem loadModel_invariant (e : TorchEnv) (s : ClassifierState)
    (h : (s.model = none ∧ s.ctorCount = 0) ∨
      (s.model.isSome = true ∧ s.ctorCount = 1)) :
    ((loadModel e s).2.model = none ∧ (loadModel e s).2.ctorCount = 0) ∨
      ((loadModel e s).2.model.isSome = true ∧ (loadModel e s).2.ctorCount = 1) := by
  unfold loadModel
  rcases h with ⟨h1, h2⟩ | ⟨h1, h2⟩
  · by_cases hc : e.ctorFails <;> by_cases ht : e.toDeviceFails <;>
      simp [hc, ht, h1, h2]
  · simp [h1, h2]

theorem runLoads_atMostOnce (envs : List TorchEnv) (d : String) :
    (runLoads envs (initState d)).ctorCount ≤ 1 := by
  suffices h : ∀ (s : ClassifierState),
      ((s.model = none ∧ s.ctorCount = 0) ∨
        (s.model.isSome = true ∧ s.ctorCount = 1)) →
      ((runLoads envs s).model = none ∧ (runLoads envs s).ctorCount = 0) ∨
        ((runLoads envs s).model.isSome = true ∧
          (runLoads envs s).ctorCount = 1) by
    rcases h (initState d) (Or.inl ⟨rfl, rfl⟩) with ⟨_, h2⟩ | ⟨_, h2⟩ <;>
      omega
  induction envs with
  | nil => intro s hs; exact hs
  | cons e rest ih =>
    intro s hs
    exact ih ((loadModel e s).2) (loadModel_invariant e s hs)

/-! ### Preprocessing facts -/

theorem convex_bound {t a b lo hi : ℚ} (ht0 : 0 ≤ t) (ht1 : t ≤ 1)
    (ha1 : lo ≤ a) (ha2 : a ≤ hi) (hb1 : lo ≤ b) (hb2 : b ≤ hi) :
    lo ≤ (1 - t) * a + t * b ∧ (1 - t) * a + t * b ≤ hi := by
  constructor <;> nlinarith

theorem bilinear_bounds {lo hi : ℚ} (w h : ℕ) (f : ℕ → ℕ → ℚ)
    (hf : ∀ i j, lo ≤ f i j ∧ f i j ≤ hi) (x y : ℚ) :
    lo ≤ bilinear w h f x y ∧ bilinear w h f x y ≤ hi := by
  have hx0 : (0 : ℚ) ≤ x - ⌊x⌋ := sub_nonneg.mpr (Int.floor_le x)
  have hx1 : x - ⌊x⌋ ≤ 1 := by
    have := Int.lt_floor_add_one x
    push_cast at this ⊢
    linarith
  have hy0 : (0 : ℚ) ≤ y - ⌊y⌋ := sub_nonneg.mpr (Int.floor_le y)
  have hy1 : y - ⌊y⌋ ≤ 1 := by
    have := Int.lt_floor_add_one y
    push_cast at this ⊢
    linarith
  unfold bilinear
  have hrow1 := convex_bound hx0 hx1 (hf (clampIdx w ⌊x⌋) (clampIdx h ⌊y⌋)).1
    (hf (clampIdx w ⌊x⌋) (clampIdx h ⌊y⌋)).2
    (hf (clampIdx w (⌊x⌋ + 1)) (clampIdx h ⌊y⌋)).1
    (hf (clampIdx w (⌊x⌋ + 1)) (clampIdx h ⌊y⌋)).2
  have hrow2 := convex_bound hx0 hx1 (hf (clampIdx w ⌊x⌋) (clampIdx h (⌊y⌋ + 1))).1
    (hf (clampIdx w ⌊x⌋) (clampIdx h (⌊y⌋ + 1))).2
    (hf (clampIdx w (⌊x⌋ + 1)) (clampIdx h (⌊y⌋ + 1))).1
    (hf (clampIdx w (⌊x⌋ + 1)) (clampIdx h (⌊y⌋ + 1))).2
  exact convex_bound hy0 hy1 hrow1.1 hrow1.2 hrow2.1 hrow2.2

theorem imagenetStd_pos (c : ℕ) : 0 < imagenetStd c := by
  unfold imagenetStd
  split
  · norm_num
  · split <;> norm_num

theorem resizeDims_min (w h : ℕ) (hw : 1 ≤ w) (hh : 1 ≤ h) :
    min (resizeDims w h).1 (resizeDims w h).2 = 256 := by
  unfold resizeDims
  by_cases hc : w ≤ h
  · rw [if_pos hc]
    have : 256 ≤ 256 * h / w := by
      rw [Nat.le_div_iff_mul_le hw]
      exact Nat.mul_le_mul_left 256 hc
    simpa using this
  · rw [if_neg hc]
    have hhw : h ≤ w := le_of_lt (not_le.mp hc)
    have : 256 ≤ 256 * w / h := by
      rw [Nat.le_div_iff_mul_le hh]
      exact Nat.mul_le_mul_left 256 hhw
    simpa [min_comm] using this

theorem croppedChan_bounds (img : PILImage)
    (hpx : ∀ c x y, 0 ≤ toRGBchan img c x y ∧ toRGBchan img c x y ≤ 255)
    (c i j : ℕ) : 0 ≤ croppedChan img c i j ∧ croppedChan img c i j ≤ 255 := by
  unfold croppedChan resizedChan
  exact bilinear_bounds img.width img.height (toRGBchan img c)
    (fun x y => hpx c x y) _ _

theorem runGetClassifier_stable :
    ∀ (n c k : ℕ), runGetClassifier n ⟨some c, k⟩ = (List.replicate n c, ⟨some c, k⟩)
  | 0, _, _ => rfl
  | n + 1, c, k => by
    rw [runGetClassifier]
    rw [show get_classifier ⟨some c, k⟩ = (c, ⟨some c, k⟩) from rfl]
    rw [runGetClassifier_stable n c k]
    rfl

theorem predict_err_topk_range (scores : List ℚ) (tk : ℤ) (d : String)
    (hlen : scores.length = 1000) (h : tk < 0 ∨ 1000 < tk) :
    predict goodEnv scores tk (initState d)
      = (.error (.valueError "Failed to process image: selected index k out of range"),
         loadedState d) := by
  have hc : tk < 0 ∨ ((softmax scores).length : ℤ) < tk := by
    rw [softmax_length, hlen]
    push_cast
    omega
  unfold predict predictTry
  rw [loadModel_init]
  simp [goodEnv, hc, errMsg]

theorem predict_err_topk_zero (scores : List ℚ) (d : String) :
    predict goodEnv scores 0 (initState d)
      = (.error (.valueError "Failed to process image: list index out of range"),
         loadedState d) := by
  have hn : (0 : ℤ) ≤ ((softmax scores).length : ℤ) := Int.natCast_nonneg _
  have h1 : ¬((0 : ℤ) < 0) := by omega
  have h2 : ¬(((softmax scores).length : ℤ) < 0) := by omega
  unfold predict predictTry
  rw [loadModel_init]
  simp [goodEnv, h1, h2, topkAux, errMsg]

/-! ### Claims -/

/-- Claim C1 is false of the code: `ImageClassifier.predict` performs no
`top_k` validation of its own and the code defines no
`InvalidArgumentError`.  At `top_k = 0` (outside the claimed range) the
call fails, but with the blanket `ValueError` produced by the
`except` clause - here wrapping the `IndexError` raised by the logging
line `predictions[0]` on the empty prediction list - and not with an
`InvalidArgumentError`. -/
theorem claim1_counterexample :
    (predict goodEnv (List.replicate 1000 0) 0 (initState "cpu")).1
        = .error (.valueError "Failed to process image: list index out of range")
    ∧ raisedInvalidArgument
        (predict goodEnv (List.replicate 1000 0) 0 (initState "cpu")).1 = false := by
  constructor
  · rw [predict_err_topk_zero]
  · rw [predict_err_topk_zero]
    rfl

/-- Claim C1, amended: `predict` does not validate `top_k`; for every
`top_k` outside `[1, label_set_size]` it fails, but with the generic
`ValueError` into which the blanket except clause erases every failure
(wrapping the torch error for negative or too-large `top_k`, and the
logging IndexError for `top_k = 0`), not with an `InvalidArgumentError`;
for every `top_k` inside the range it does not fail on account of the
`top_k` value. -/
theorem claim1_amended (scores : List ℚ) (tk : ℤ) (d : String)
    (hlen : scores.length = 1000) :
    (tk < 1 ∨ 1000 < tk →
      isValueError (predict goodEnv scores tk (initState d)).1 = true)
    ∧ (1 ≤ tk → tk ≤ 1000 →
      ∃ l, (predict goodEnv scores tk (initState d)).1 = .ok l) := by
  constructor
  · intro h
    by_cases h0 : tk = 0
    · subst h0
      rw [predict_err_topk_zero]
      rfl
    · have hr : tk < 0 ∨ 1000 < tk := by omega
      rw [predict_err_topk_range scores tk d hlen hr]
      rfl
  · intro h1 h2
    have htk : tk = ((tk.toNat : ℕ) : ℤ) := (Int.toNat_of_nonneg (by omega)).symm
    rw [htk]
    refine ⟨(topkAux tk.toNat (softmax scores).enum).map
      (fun p => (classLabels.getD p.1 "", p.2)), ?_⟩
    rw [predict_ok goodEnv scores tk.toNat _ _ (loadModel_init d) rfl hlen
      (by omega) (by omega)]

/-- Witness for the amended claim C1 at the in-range value 5 on a concrete
score vector of length 1000. -/
theorem claim1_amended_witness :
    ((5 : ℤ) < 1 ∨ 1000 < (5 : ℤ) →
      isValueError (predict goodEnv (List.replicate 1000 0) 5 (initState "cpu")).1 = true)
    ∧ (1 ≤ (5 : ℤ) → (5 : ℤ) ≤ 1000 →
      ∃ l, (predict goodEnv (List.replicate 1000 0) 5 (initState "cpu")).1 = .ok l) :=
  claim1_amended (List.replicate 1000 0) 5 "cpu" (by rw [List.length_replicate])

/-- Claim C6: for every valid image (entering through its raw score vector
of length equal to the label-set size 1000) and every `top_k` in
`[1, label_set_size]`, `predict` succeeds and returns a list of exactly
`top_k` (label, confidence) pairs. -/
theorem claim6_topk_length (scores : List ℚ) (k : ℕ) (d : String)
    (hlen : scores.length = 1000) (hk1 : 1 ≤ k) (hk2 : k ≤ 1000) :
    ∃ l, (predict goodEnv scores (k : ℤ) (initState d)).1 = .ok l
      ∧ l.length = k := by
  refine ⟨(topkAux k (softmax scores).enum).map
    (fun p => (classLabels.getD p.1 "", p.2)), ?_, ?_⟩
  · rw [predict_ok goodEnv scores k _ _ (loadModel_init d) rfl hlen hk1 hk2]
  · rw [List.length_map]
    apply topkAux_length
    rw [enum_length, softmax_length, hlen]
    exact hk2

/-- Witness for claim C6 at `top_k = 5` on a concrete score vector of
length 1000. -/
theorem claim6_topk_length_witness :
    ∃ l, (predict goodEnv (List.replicate 1000 0) ((5 : ℕ) : ℤ) (initState "cpu")).1
        = .ok l ∧ l.length = 5 :=
  claim6_topk_length (List.replicate 1000 0) 5 "cpu" (by rw [List.length_replicate]) (by omega) (by omega)

/-- Claim C7 is false of the code as stated: `predict` delegates ranking
entirely to `torch.topk`, whose documented contract (`TopkAdmissible`)
leaves the order among equal probabilities unconstrained - torch
documents no tie order and CPU and CUDA devices differ - so the claimed
lower-label-set-index-first, stable-deterministic tie rule is not
guaranteed by the program.  Concretely, on the uniform probability vector
arising from 1000 equal scores, both selection orders of the first two
tied classes are admissible `torch.topk` outcomes for `top_k = 2`, and
one of them violates the lower-index-first rule. -/
theorem claim7_counterexample :
    TopkAdmissible (softmax (List.replicate 1000 0)).enum 2
      [(1, (1 : ℚ) / 1000), (0, (1 : ℚ) / 1000)]
    ∧ ¬ TiesLowerIndexFirst [(1, (1 : ℚ) / 1000), (0, (1 : ℚ) / 1000)]
    ∧ TopkAdmissible (softmax (List.replicate 1000 0)).enum 2
      [(0, (1 : ℚ) / 1000), (1, (1 : ℚ) / 1000)] := by
  refine ⟨tied_admissible_10, ?_, tied_admissible_01⟩
  intro h
  have h1 := (List.pairwise_cons.mp h).1 (0, (1 : ℚ) / 1000)
    (List.mem_cons_self _ _) rfl
  simp at h1

/-- Claim C7, amended: for every admissible outcome of the `torch.topk`
call on the softmax probabilities, the prediction list `predict` builds
from it is ordered in non-increasing confidence order and every
confidence lies in `[0, 1]`; the order among entries of equal confidence
is whatever the `torch.topk` tie resolution produced and is not
guaranteed by the code (the executable embedding `topkAux` fixes one
admissible resolution, see `topkAux_admissible`). -/
theorem claim7_amended (scores : List ℚ) (k : ℕ) (out : List (ℕ × ℚ))
    (hne : scores ≠ [])
    (hadm : TopkAdmissible (softmax scores).enum k out) :
    (out.map (fun p => (classLabels.getD p.1 "", p.2))).Pairwise
      (fun a b => b.2 ≤ a.2)
    ∧ ∀ q ∈ out.map (fun p => (classLabels.getD p.1 "", p.2)),
        0 ≤ q.2 ∧ q.2 ≤ 1 := by
  obtain ⟨hlen, hsub, hsort, hmax⟩ := hadm
  constructor
  · refine List.pairwise_map.mpr (hsort.imp ?_)
    intro a b hba
    exact hba
  · intro q hq
    rcases List.mem_map.mp hq with ⟨p, hp, rfl⟩
    have hpe : p ∈ (softmax scores).enum := hsub.subset hp
    have hps : p.2 ∈ softmax scores := mem_enumFrom_snd 0 _ p hpe
    have hb := softmax_mem_bounds scores hne p.2 hps
    exact ⟨le_of_lt hb.1, hb.2⟩

/-- Witness for the amended claim C7 at a concrete admissible
`torch.topk` outcome for `top_k = 2` on the uniform probability vector of
1000 equal scores. -/
theorem claim7_amended_witness :
    (([((0 : ℕ), (1 : ℚ) / 1000), ((1 : ℕ), (1 : ℚ) / 1000)]).map
        (fun p => (classLabels.getD p.1 "", p.2))).Pairwise
      (fun a b => b.2 ≤ a.2)
    ∧ ∀ q ∈ ([((0 : ℕ), (1 : ℚ) / 1000), ((1 : ℕ), (1 : ℚ) / 1000)]).map
        (fun p => (classLabels.getD p.1 "", p.2)),
        0 ≤ q.2 ∧ q.2 ≤ 1 :=
  claim7_amended (List.replicate 1000 0) 2
    [((0 : ℕ), (1 : ℚ) / 1000), ((1 : ℕ), (1 : ℚ) / 1000)]
    (by
      intro h
      have hl := congrArg List.length h
      rw [List.length_replicate] at hl
      simp at hl)
    tied_admissible_01

/-- Claim C8 is false of the code as stated: when the forward pass raises
after a successful load, `predict` fails with the generic `ValueError`
produced by the blanket except clause (the code defines no
`PredictionError`), although the raised message does wrap the cause and
the already-loaded scorer is left intact. -/
theorem claim8_counterexample :
    (predict ⟨false, false, some "shape mismatch"⟩ (List.replicate 1000 0) 5
        (loadedState "cpu")).1
      = .error (.valueError "Failed to process image: shape mismatch")
    ∧ raisedPredictionError
        (predict ⟨false, false, some "shape mismatch"⟩ (List.replicate 1000 0) 5
          (loadedState "cpu")).1 = false
    ∧ (predict ⟨false, false, some "shape mismatch"⟩ (List.replicate 1000 0) 5
        (loadedState "cpu")).2 = loadedState "cpu" :=
  ⟨rfl, rfl, rfl⟩

/-- Claim C8, amended: if the forward pass raises any error from the
underlying numeric engine after a successful load, `predict` fails with
the generic `ValueError` wrapping the cause message (not with a dedicated
`PredictionError`, which the code does not define), the classifier state -
including the already-loaded scorer - is unchanged, and a subsequent
`predict` call on the same instance succeeds. -/
theorem claim8_amended (env : TorchEnv) (scores scores2 : List ℚ) (tk : ℤ)
    (k2 : ℕ) (s : ClassifierState) (m : String)
    (hs : s.model.isSome = true) (hfe : env.forwardError = some m)
    (hlen2 : scores2.length = 1000) (hk1 : 1 ≤ k2) (hk2 : k2 ≤ 1000) :
    predict env scores tk s
        = (.error (.valueError ("Failed to process image: " ++ m)), s)
    ∧ ∃ l, (predict goodEnv scores2 (k2 : ℤ) s).1 = .ok l := by
  constructor
  · unfold predict predictTry
    rw [loadModel_of_loaded env s hs]
    simp [hfe, errMsg]
  · refine ⟨(topkAux k2 (softmax scores2).enum).map
      (fun p => (classLabels.getD p.1 "", p.2)), ?_⟩
    rw [predict_ok goodEnv scores2 k2 s s (loadModel_of_loaded goodEnv s hs) rfl
      hlen2 hk1 hk2]

/-- Witness for the amended claim C8 at a concrete forward-pass failure on
a loaded classifier, followed by a successful call. -/
theorem claim8_amended_witness :
    predict ⟨false, false, some "boom"⟩ [] 5 (loadedState "cpu")
        = (.error (.valueError ("Failed to process image: " ++ "boom")),
           loadedState "cpu")
    ∧ ∃ l, (predict goodEnv (List.replicate 1000 0) ((3 : ℕ) : ℤ)
        (loadedState "cpu")).1 = .ok l :=
  claim8_amended ⟨false, false, some "boom"⟩ [] (List.replicate 1000 0) 5 3
    (loadedState "cpu") "boom" rfl rfl (by rw [List.length_replicate]) (by omega) (by omega)

/-- Claim C2 is false of the code: `_load_model` guards scorer construction
only by the unsynchronized check `if self.model is None`, with no
mutual-exclusion mechanism.  Under the interleaving in which both of two
concurrent callers evaluate the check before either assigns `self.model`
(schedule 0,1,0,1), the scorer is constructed twice; the serialized
schedule 0,0,1,1 constructs it once. -/
theorem claim2_counterexample :
    (concRun 2 [0, 1, 0, 1]).count = 2 ∧ (concRun 2 [0, 0, 1, 1]).count = 1 := by
  decide

/-- Claim C2, amended: scorer construction is guarded by no
mutual-exclusion mechanism, only by the unsynchronized `model is None`
check; when the load attempts of successive predict calls are serialized
(as they are on the single event-loop thread of the actual runtime), at
most one construction occurs for the lifetime of the instance, for every
sequence of attempts and every pattern of external failures. -/
theorem claim2_amended (envs : List TorchEnv) (d : String) :
    (runLoads envs (initState d)).ctorCount ≤ 1 :=
  runLoads_atMostOnce envs d

/-- Claim C3 is false of the code as stated: when `models.resnet18(...)`
succeeds but `model.to(self.device)` raises (the unsupported-device
failure the spec itself lists), `self.model` has already been assigned, so
the failed attempt leaves the model field partially set (constructed, not
on the device, not in eval mode) and the next load attempt sees
`self.model is not None` and does not re-attempt initialization. -/
theorem claim3_counterexample :
    (loadModel ⟨false, true, none⟩ (initState "cuda")).1
        = .error (.runtimeError "unsupported device")
    ∧ (loadModel ⟨false, true, none⟩ (initState "cuda")).2.model
        = some ⟨"resnet18", false, false⟩
    ∧ loadModel goodEnv (loadModel ⟨false, true, none⟩ (initState "cuda")).2
        = (.ok (), (loadModel ⟨false, true, none⟩ (initState "cuda")).2) :=
  ⟨rfl, rfl, rfl⟩

/-- Claim C3, amended: only when the model constructor itself
(`models.resnet18(...)`) fails does the failed attempt leave `self.model`
unset and the construction counter untouched, and a subsequent attempt
then re-attempts initialization and can fully load the scorer; a failure
of the later `.to(device)` step instead leaves the field partially set
with no re-attempt. -/
theorem claim3_amended (d : String) (e1 e2 : TorchEnv)
    (h1 : e1.ctorFails = true) (h2a : e2.ctorFails = false)
    (h2b : e2.toDeviceFails = false) :
    loadModel e1 (initState d) = (.error (.runtimeError "weights unavailable"), initState d)
    ∧ loadModel e2 ((loadModel e1 (initState d)).2) = (.ok (), loadedState d) := by
  have hfirst : loadModel e1 (initState d)
      = (.error (.runtimeError "weights unavailable"), initState d) := by
    simp [loadModel, initState, h1]
  refine ⟨hfirst, ?_⟩
  rw [hfirst]
  simp [loadModel, initState, loadedState, h2a, h2b]

/-- Witness for the amended claim C3 at a concrete constructor failure
followed by a failure-free attempt. -/
theorem claim3_amended_witness :
    loadModel ⟨true, false, none⟩ (initState "cpu")
        = (.error (.runtimeError "weights unavailable"), initState "cpu")
    ∧ loadModel goodEnv ((loadModel ⟨true, false, none⟩ (initState "cpu")).2)
        = (.ok (), loadedState "cpu") :=
  claim3_amended "cpu" ⟨true, false, none⟩ goodEnv rfl rfl rfl

/-- Claim C4 is false of the code as stated: the configured model
identifier does not select what the prediction path loads.  With the
configuration set to the known identifier `resnet50` (which
`ModelConfig.get_model` would map to the resnet50 architecture), the load
performed by `predict` still constructs resnet18, because `_load_model`
hardcodes `models.resnet18` and never consults the configuration. -/
theorem claim4_counterexample :
    (loadModelWithConfig ⟨"resnet50", none⟩ goodEnv (initState "cpu")).2.model
        = some ⟨"resnet18", true, true⟩
    ∧ get_model "resnet50" "cpu"
        = .ok ⟨⟨⟨"resnet50", "IMAGENET1K_V2", "Better accuracy, moderate speed"⟩,
            "cpu", true⟩, false⟩
    ∧ ("resnet18" : String) ≠ "resnet50" :=
  ⟨rfl, rfl, by decide⟩

/-- Claim C4, amended: `ModelConfig.get_model` never fails and maps an
unknown identifier to the documented resnet18 default with a warning (a
known identifier maps to its own entry without a warning), but this
function is never called on the prediction path: the model load performed
by `predict` ignores the configured model identifier entirely and always
constructs resnet18. -/
theorem claim4_amended (name device : String) (cfg : Settings)
    (env : TorchEnv) (s : ClassifierState) :
    get_model name device
        = .ok ⟨⟨(MODELS.lookup name).getD resnet18Info, device, true⟩,
            (MODELS.lookup name).isNone⟩
    ∧ loadModelWithConfig cfg env s = loadModel env s := by
  refine ⟨?_, rfl⟩
  cases hl : MODELS.lookup name with
  | some info => simp [get_model, hl]
  | none =>
    have h18 : MODELS.lookup "resnet18" = some resnet18Info := by decide
    simp [get_model, hl, h18]

/-- Claim C9: the readiness operation of the service (the check
`classifier.model is not None`, reported by the health endpoint as
`model_loaded`; the spec names it `is_ready()`) is false at service
creation, before any `predict` call, and true after a `predict` call has
completed loading the scorer, whether the forward pass then succeeds or
raises. -/
theorem claim9_ready :
    (∀ d, is_ready (initState d) = false)
    ∧ (∀ scores tk d, is_ready (predict goodEnv scores tk (initState d)).2 = true)
    ∧ (∀ m scores tk d,
        is_ready (predict ⟨false, false, some m⟩ scores tk (initState d)).2 = true) := by
  refine ⟨fun d => rfl, fun scores tk d => ?_, fun m scores tk d => ?_⟩
  · rw [predict_snd, loadModel_init]
    rfl
  · rw [predict_snd, loadModel_forwardEnv_init]
    rfl

/-- Claim C10: `get_classifier` is a process-wide singleton.  Starting from
the module state at process start, every one of n+1 successive calls
returns the same instance (the one created by the first call) and exactly
one construction occurs; moreover from any state in which an instance
already exists, a call returns that very instance and leaves the state
unchanged, so no call ever constructs a second instance once one exists. -/
theorem claim10_singleton :
    (∀ n : ℕ, runGetClassifier (n + 1) appInit
        = (List.replicate (n + 1) 0, ⟨some 0, 1⟩))
    ∧ (∀ c k : ℕ, get_classifier ⟨some c, k⟩ = (c, ⟨some c, k⟩)) := by
  refine ⟨fun n => ?_, fun c k => rfl⟩
  rw [runGetClassifier]
  rw [show get_classifier appInit = (0, ⟨some 0, 1⟩) from rfl]
  rw [runGetClassifier_stable n 0 1]
  rfl

/-- Claim C5: for every decodable image of dimensions at least 1 by 1 in
any color mode, with all pixel channel values in `[0, 255]`,
`preprocess_image` produces the tensor of shape `(1, 3, 224, 224)`; the
resize step maps the shorter side to exactly 256 (so the centered 224 by
224 crop is in range); every entry equals
`(pixel / 255 - mean c) / std c` for the corresponding cropped resized
pixel value, which itself lies in `[0, 255]`; consequently every entry is
bounded between `(0 - mean c) / std c` and `(1 - mean c) / std c` (finite
values only, the exact-rational reading of no NaN or Inf); and a grayscale
image is replicated identically across the three channels. -/
theorem claim5_preprocess (img : PILImage) (hw : 1 ≤ img.width)
    (hh : 1 ≤ img.height)
    (hpx : ∀ c x y, 0 ≤ toRGBchan img c x y ∧ toRGBchan img c x y ≤ 255) :
    (preprocess_image img).dims = (1, 3, 224, 224)
    ∧ min (resizeDims img.width img.height).1 (resizeDims img.width img.height).2 = 256
    ∧ (∀ c i j,
        (preprocess_image img).val 0 c i j
          = (croppedChan img c i j / 255 - imagenetMean c) / imagenetStd c
        ∧ 0 ≤ croppedChan img c i j ∧ croppedChan img c i j ≤ 255
        ∧ (0 - imagenetMean c) / imagenetStd c ≤ (preprocess_image img).val 0 c i j
        ∧ (preprocess_image img).val 0 c i j ≤ (1 - imagenetMean c) / imagenetStd c)
    ∧ (img.mode = ColorMode.L →
        ∀ c1 c2 i j, croppedChan img c1 i j = croppedChan img c2 i j) := by
  refine ⟨rfl, resizeDims_min img.width img.height hw hh, ?_, ?_⟩
  · intro c i j
    have hcb := croppedChan_bounds img hpx c i j
    have hstd := imagenetStd_pos c
    have hv01 : 0 ≤ croppedChan img c i j / 255 ∧ croppedChan img c i j / 255 ≤ 1 :=
      ⟨div_nonneg hcb.1 (by norm_num),
       (div_le_one (by norm_num)).mpr hcb.2⟩
    refine ⟨rfl, hcb.1, hcb.2, ?_, ?_⟩
    · show (0 - imagenetMean c) / imagenetStd c
        ≤ (croppedChan img c i j / 255 - imagenetMean c) / imagenetStd c
      apply div_le_div_of_nonneg_right _ (le_of_lt hstd)
      · linarith [hv01.1]
    · show (croppedChan img c i j / 255 - imagenetMean c) / imagenetStd c
        ≤ (1 - imagenetMean c) / imagenetStd c
      apply div_le_div_of_nonneg_right _ (le_of_lt hstd)
      · linarith [hv01.2]
  · intro hmode c1 c2 i j
    unfold croppedChan resizedChan bilinear
    simp [toRGBchan, hmode]

/-- Witness for claim C5 at a concrete 1 by 1 grayscale image of constant
luminance 100. -/
theorem claim5_preprocess_witness :
    (preprocess_image testImgL).dims = (1, 3, 224, 224)
    ∧ min (resizeDims testImgL.width testImgL.height).1
        (resizeDims testImgL.width testImgL.height).2 = 256
    ∧ (∀ c i j,
        (preprocess_image testImgL).val 0 c i j
          = (croppedChan testImgL c i j / 255 - imagenetMean c) / imagenetStd c
        ∧ 0 ≤ croppedChan testImgL c i j ∧ croppedChan testImgL c i j ≤ 255
        ∧ (0 - imagenetMean c) / imagenetStd c ≤ (preprocess_image testImgL).val 0 c i j
        ∧ (preprocess_image testImgL).val 0 c i j ≤ (1 - imagenetMean c) / imagenetStd c)
    ∧ (testImgL.mode = ColorMode.L →
        ∀ c1 c2 i j, croppedChan testImgL c1 i j = croppedChan testImgL c2 i j) :=
  claim5_preprocess testImgL (le_refl 1) (le_refl 1)
    (fun c x y => by constructor <;> norm_num [toRGBchan, testImgL])

end MLAPI
